import Mathlib

/-!
Verification of the constraint-based timetable generator (`krutarth.py`).

The development shallowly embeds the scheduling core: Python dicts become
insertion-ordered association lists, `random` becomes an explicit oracle
indexed by a call counter, and Python string comparison becomes code-point
lexicographic comparison on the character lists.  All definitions are
executable so concrete scenarios evaluate by `decide` / `rfl`.
-/

namespace TTG

/-- Lookup in an insertion-ordered association list (Python `d[k]` / `k in d`). -/
def plookup {α β : Type} [DecidableEq α] : List (α × β) → α → Option β
  | [], _ => none
  | (a, b) :: t, k => if a = k then some b else plookup t k

/-- Python `d[k] = v`: replace the value when the key is present, append otherwise. -/
def pinsert {α β : Type} [DecidableEq α] : List (α × β) → α → β → List (α × β)
  | [], k, v => [(k, v)]
  | (a, b) :: t, k, v => if a = k then (a, v) :: t else (a, b) :: pinsert t k v

/-- Apply a function to the value stored at an existing key, leaving other
entries untouched (used to reach into the nested timetable dicts). -/
def pupdate {α β : Type} [DecidableEq α] : List (α × β) → α → (β → β) → List (α × β)
  | [], _, _ => []
  | (a, b) :: t, k, f => if a = k then (a, f b) :: t else (a, b) :: pupdate t k f

/-- Code-point lexicographic order on character lists: the order Python uses
for `str < str`. -/
def charListLt : List Char → List Char → Bool
  | _, [] => false
  | [], _ :: _ => true
  | a :: as, b :: bs =>
    if a.toNat < b.toNat then true
    else if b.toNat < a.toNat then false
    else charListLt as bs

/-- Python string `<` (lexicographic by code point). -/
def pyStrLt (a b : String) : Bool := charListLt a.data b.data

/-- Helper for `pySplit`: accumulates the current chunk in reverse. -/
def splitCharAux (sep : Char) : List Char → List Char → List (List Char)
  | [], acc => [acc.reverse]
  | c :: t, acc =>
    if c = sep then acc.reverse :: splitCharAux sep t []
    else splitCharAux sep t (c :: acc)

/-- Python `s.split(sep)` for a single-character separator. -/
def pySplit (sep : Char) (s : String) : List String :=
  (splitCharAux sep s.data []).map (fun l => String.mk l)

/-- One slot of the timetable grid: the dict
`{"subject": ..., "faculty": ..., "room": ...}`.  The source also writes an
`is_lab` key at initialization, but the generation passes replace cells by
dicts without that key and nothing in the embedded fragment ever reads it,
so it is not carried. -/
structure SlotData where
  subject : Option String
  faculty : Option String
  room : Option String
deriving DecidableEq, Repr

/-- A faculty record `{"start": ..., "end": ..., "days": [...]}`.  The field
`stop` embeds the dict key `"end"` (`end` is reserved in Lean). -/
structure FacultyData where
  start : String
  stop : String
  days : List String
deriving DecidableEq, Repr

/-- The fixed day list `self.days`. -/
def pyDays : List String :=
  ["Monday", "Tuesday", "Wednesday", "Thursday", "Friday", "Saturday"]

/-- Catalog of subjects: semester -> division -> subject ->
`(total_hours, faculty, subject_type)`, as nested insertion-ordered dicts. -/
abbrev SubjectsCatalog := List (Nat × List (String × List (String × (Nat × String × String))))

/-- The static configuration the generator reads from the application object:
faculty directory, slot grid, room pools, subject catalog, term length,
working-day flags and the configured per-day faculty cap. -/
structure Config where
  faculties : List (String × FacultyData)
  time_slots : List String
  classrooms : List String
  labs : List String
  subjects : SubjectsCatalog
  semester_duration : Nat
  working_days : String → Bool
  max_faculty_lectures : Nat

abbrev SlotMap := List (String × SlotData)

abbrev DayMap := List (String × SlotMap)

abbrev DivMap := List (String × DayMap)

abbrev Timetable := List (Nat × DivMap)

/-- Embeds `check_faculty_availability` (src lines 1189-1206): false when the
faculty has no record or the day is missing from its working days; otherwise
the slot label is split on `-` and both endpoints are compared with the
faculty window using Python string comparison. -/
def check_faculty_availability (cfg : Config) (faculty day time_slot : String) : Bool :=
  match plookup cfg.faculties faculty with
  | none => false
  | some faculty_data =>
    if day ∈ faculty_data.days then
      let parts := pySplit '-' time_slot
      let time_start := parts.headD ""
      let time_end := parts.getD 1 ""
      if pyStrLt time_start faculty_data.start || pyStrLt faculty_data.stop time_end then false
      else true
    else false

/-- Minutes past midnight of an `"H:MM"` / `"HH:MM"` label, the parsed-time
reading the specification demands for availability comparisons. -/
def parseMinutes (s : String) : Nat :=
  match pySplit ':' s with
  | [h, m] => (h.toList.foldl (fun n c => n * 10 + (c.toNat - 48)) 0) * 60 +
      (m.toList.foldl (fun n c => n * 10 + (c.toNat - 48)) 0)
  | _ => 0

/-- Modelled from the spec: the availability oracle of section 4.1, with the
window comparison done under a consistent 24-hour ordering (parsed times)
instead of the source's raw string comparison. -/
def isAvailableSpec (cfg : Config) (faculty day time_slot : String) : Bool :=
  match plookup cfg.faculties faculty with
  | none => false
  | some faculty_data =>
    if day ∈ faculty_data.days then
      let parts := pySplit '-' time_slot
      let time_start := parts.headD ""
      let time_end := parts.getD 1 ""
      if parseMinutes time_start < parseMinutes faculty_data.start
          || parseMinutes faculty_data.stop < parseMinutes time_end then false
      else true
    else false

/-- Configuration carrying only the scenario-A faculty: `"PG"` works
Monday-Saturday with window 9:00-15:15, over the default slot grid. -/
def scenarioACfg : Config where
  faculties := [("PG", ⟨"9:00", "15:15", pyDays⟩)]
  time_slots := ["8:05-8:55", "9:00-9:50", "9:55-10:45", "10:50-11:40",
    "11:45-12:35", "12:40-13:30", "13:35-14:25", "14:30-15:15"]
  classrooms := ["101", "207", "208", "307"]
  labs := ["Lab-6", "Lab-7", "Lab-8", "Lab-113", "Lab-205"]
  subjects := []
  semester_duration := 11
  working_days := fun _ => true
  max_faculty_lectures := 4

/-- Embeds `initialize_timetable_structure` (src lines 1156-1172): for every
semester and division of the catalog, every enabled working day and every
grid slot receives a fresh cell whose subject, faculty and room are `None`. -/
def init_timetable_structure (cfg : Config) : Timetable :=
  cfg.subjects.map (fun sd =>
    (sd.1, sd.2.map (fun dv =>
      (dv.1, (pyDays.filter cfg.working_days).map (fun day =>
        (day, cfg.time_slots.map (fun ts => (ts, SlotData.mk none none none))))))))

/-- `timetable[semester][division]`, as an optional lookup. -/
def getDayMap (tt : Timetable) (sem : Nat) (div : String) : Option DayMap :=
  (plookup tt sem).bind (fun m => plookup m div)

/-- `timetable[semester][division][day]`, as an optional lookup. -/
def getSlotMap (tt : Timetable) (sem : Nat) (div : String) (day : String) : Option SlotMap :=
  (getDayMap tt sem div).bind (fun m => plookup m day)

/-- `timetable[semester][division][day][time_slot]`, as an optional lookup. -/
def getCell (tt : Timetable) (sem : Nat) (div day time_slot : String) : Option SlotData :=
  (getSlotMap tt sem div day).bind (fun m => plookup m time_slot)

/-- The subject stored in a cell (missing key or `None` both give `none`). -/
def cellSubject (tt : Timetable) (sem : Nat) (div day time_slot : String) : Option String :=
  (getCell tt sem div day time_slot).bind (fun c => c.subject)

/-- `timetable[semester][division][day][time_slot] = cell`, an in-place write
into the nested dicts (a no-op when the semester/division/day path is
missing, which the source never does). -/
def setCell (tt : Timetable) (sem : Nat) (div day time_slot : String) (c : SlotData) :
    Timetable :=
  pupdate tt sem (fun dv => pupdate dv div (fun dm => pupdate dm day
    (fun sm => pinsert sm time_slot c)))

/-- Python `round` on an exact quotient `h / w`: round half to even.  For the
denominators reachable from the semester-duration spinbox (8-16) this agrees
with `round(h / w)` computed through floating point. -/
def pyRound (h w : Nat) : Nat :=
  if w = 0 then 0
  else
    let q := h / w
    let r := h % w
    if 2 * r < w then q
    else if w < 2 * r then q + 1
    else if q % 2 = 0 then q else q + 1

/-- The per-subject record `calculate_weekly_load` stores: dict keys
`lectures_per_week`, `faculty` and `type` (field `stype` embeds `"type"`). -/
structure LoadDetails where
  lectures_per_week : Nat
  faculty : String
  stype : String
deriving DecidableEq, Repr

/-- Embeds `calculate_weekly_load` (src lines 1174-1187).  The dict it builds
is keyed by `(semester, division, subject)`; those keys enumerate distinct
nested dict keys, so each insertion is a plain append. -/
def calculate_weekly_load (cfg : Config) :
    List ((Nat × String × String) × LoadDetails) :=
  cfg.subjects.foldl (fun acc sd =>
    sd.2.foldl (fun acc2 dv =>
      dv.2.foldl (fun acc3 sb =>
        acc3 ++ [((sd.1, dv.1, sb.1),
          ⟨max 1 (pyRound sb.2.1 cfg.semester_duration), sb.2.2.1, sb.2.2.2⟩)]) acc2) acc) []

/-- Embeds `count_faculty_assignments` (src lines 1208-1216): how many cells
across all semesters and divisions name the faculty on the given day. -/
def count_faculty_assignments (tt : Timetable) (faculty day : String) : Nat :=
  tt.foldl (fun acc sd =>
    sd.2.foldl (fun acc2 dv =>
      match plookup dv.2 day with
      | none => acc2
      | some sm => sm.foldl (fun acc3 sc =>
          if sc.2.faculty = some faculty then acc3 + 1 else acc3) acc2) acc) 0

/-- Embeds `get_faculty_total_load` (src lines 1228-1236): total hours of all
subjects taught by the faculty, accumulated over the nested catalog loops. -/
def get_faculty_total_load (cfg : Config) (faculty : String) : Nat :=
  cfg.subjects.foldl (fun acc sd =>
    sd.2.foldl (fun acc2 dv =>
      dv.2.foldl (fun acc3 sb =>
        if sb.2.2.1 = faculty then acc3 + sb.2.1 else acc3) acc2) acc) 0

/-- Embeds `check_faculty_conflict` (src lines 1238-1245): is the faculty
already scheduled anywhere at this (day, slot)? -/
def check_faculty_conflict (tt : Timetable) (faculty day time_slot : String) : Bool :=
  tt.any (fun sd => sd.2.any (fun dv =>
    match (plookup dv.2 day).bind (fun sm => plookup sm time_slot) with
    | some c => c.faculty = some faculty
    | none => false))

/-- Embeds `find_available_rooms` (src lines 1247-1262): rooms of the chosen
pool not used by any cell at (day, slot).  The source collects used rooms in
a set; a list with possible duplicates answers the same membership tests. -/
def find_available_rooms (cfg : Config) (tt : Timetable) (day time_slot room_type : String) :
    List String :=
  let rooms := if room_type = "classroom" then cfg.classrooms else cfg.labs
  let used_rooms := tt.foldl (fun acc sd =>
    sd.2.foldl (fun acc2 dv =>
      match (plookup dv.2 day).bind (fun sm => plookup sm time_slot) with
      | some c =>
        match c.room with
        | some r => if r = "" then acc2 else acc2 ++ [r]
        | none => acc2
      | none => acc2) acc) []
  rooms.filter (fun r => ¬ used_rooms.contains r)

/-- Bump the count of a slot key, keeping dict insertion order (new keys are
appended): the `existing_slots` dict of `get_preferred_slots`. -/
def pincr : List (String × Nat) → String → List (String × Nat)
  | [], k => [(k, 1)]
  | (a, n) :: t, k => if a = k then (a, n + 1) :: t else (a, n) :: pincr t k

/-- The frequency dict `get_preferred_slots` builds (src lines 1264-1281):
occurrences of the subject per slot label, scanned day-major in the fixed
Monday-Saturday order and slot-minor in grid order. -/
def preferredSlotCounts (cfg : Config) (tt : Timetable) (sem : Nat) (div subject : String) :
    List (String × Nat) :=
  pyDays.foldl (fun m day =>
    cfg.time_slots.foldl (fun m2 ts =>
      match getCell tt sem div day ts with
      | some c => if c.subject = some subject then pincr m2 ts else m2
      | none => m2) m) []

/-- The comparison `sorted(existing_slots.items(), key=lambda x: x[1],
reverse=True)` sorts by: `a` may precede `b` when `a`'s count is at least
`b`'s. -/
def countGE (a b : String × Nat) : Prop := b.2 ≤ a.2

instance : DecidableRel countGE := fun a b => by unfold countGE; infer_instance

/-- Embeds `get_preferred_slots` (src lines 1264-1286): slot labels sorted by
descending frequency.  Python's `sorted` is the stable sort with respect to
`countGE`, which `List.insertionSort` computes. -/
def get_preferred_slots (cfg : Config) (tt : Timetable) (sem : Nat) (div subject : String) :
    List String :=
  ((preferredSlotCounts cfg tt sem div subject).insertionSort countGE).map Prod.fst

/-- The random source of the engine, as an oracle indexed by a call counter:
`sample k l n` answers the `k`-th random call when it is
`random.sample(l, n)`, and `choice k l` answers it when it is
`random.choice(l)`.  Quantifying over all oracles covers every sequence of
outcomes the Python `random` module can produce. -/
structure Rand where
  sample : Nat → List String → Nat → List String
  choice : Nat → List String → String

/-- The daily cap computed at src lines 2513-2517 and 2636-2639: faculties
with a total load above 216 hours get 5, everyone else the configured
maximum. -/
def engineDailyCap (cfg : Config) (faculty : String) : Nat :=
  if 216 < get_faculty_total_load cfg faculty then 5 else cfg.max_faculty_lectures

/-- The filter `if target_semester and semester != target_semester` (src line
2502): an `int` target is truthy unless it is 0. -/
def skipSem (tsem : Option Nat) (sem : Nat) : Bool :=
  match tsem with
  | none => false
  | some n => if n = 0 then false else sem ≠ n

/-- The filter `if target_division != "All" and division != target_division
and target_division` (src line 2504), with Python truthiness for the `str`
target. -/
def skipDiv (tdiv : Option String) (div : String) : Bool :=
  match tdiv with
  | none => false
  | some s => s ≠ "All" ∧ div ≠ s ∧ s ≠ ""

/-- The first-pass scan over adjacent slot pairs (src lines 2538-2579).
State: timetable, random counter, `assignments_made`, `assigned`. -/
def labScanPairs (cfg : Config) (rng : Rand) (sem : Nat)
    (div subject faculty day : String) (lectures_needed : Nat) :
    List (String × String) → Timetable × Nat × Nat × Bool → Timetable × Nat × Nat × Bool
  | [], st => st
  | (s1, s2) :: rest, (tt, k, made, assigned) =>
    if lectures_needed ≤ made then (tt, k, made, assigned)
    else if cellSubject tt sem div day s1 = some "Free"
        ∧ cellSubject tt sem div day s2 = some "Free" then
      if check_faculty_conflict tt faculty day s1 = true
          ∨ check_faculty_conflict tt faculty day s2 = true then
        labScanPairs cfg rng sem div subject faculty day lectures_needed rest
          (tt, k, made, assigned)
      else
        let available_labs := find_available_rooms cfg tt day s1 "lab"
        if available_labs = [] then
          labScanPairs cfg rng sem div subject faculty day lectures_needed rest
            (tt, k, made, assigned)
        else
          let available_labs2 := find_available_rooms cfg tt day s2 "lab"
          let available_labs := available_labs.filter (fun r => available_labs2.contains r)
          if available_labs = [] then
            labScanPairs cfg rng sem div subject faculty day lectures_needed rest
              (tt, k, made, assigned)
          else
            let lab_room := rng.choice k available_labs
            let tt1 := setCell tt sem div day s1 ⟨some subject, some faculty, some lab_room⟩
            let tt2 := setCell tt1 sem div day s2
              ⟨some (subject ++ " (cont.)"), some faculty, some lab_room⟩
            (tt2, k + 1, made + 1, true)
    else labScanPairs cfg rng sem div subject faculty day lectures_needed rest
      (tt, k, made, assigned)

/-- The retry scan over adjacent slot pairs (src lines 2588-2615): one
combined guard, then the room intersection, stopping after one assignment. -/
def labRetryScan (cfg : Config) (rng : Rand) (sem : Nat) (div subject faculty day : String) :
    List (String × String) → Timetable × Nat × Nat → Timetable × Nat × Nat
  | [], st => st
  | (s1, s2) :: rest, (tt, k, made) =>
    if cellSubject tt sem div day s1 = some "Free"
        ∧ cellSubject tt sem div day s2 = some "Free"
        ∧ check_faculty_conflict tt faculty day s1 = false
        ∧ check_faculty_conflict tt faculty day s2 = false then
      let l1 := find_available_rooms cfg tt day s1 "lab"
      let l2 := find_available_rooms cfg tt day s2 "lab"
      let available_labs := l1.filter (fun r => l2.contains r)
      if available_labs = [] then
        labRetryScan cfg rng sem div subject faculty day rest (tt, k, made)
      else
        let lab_room := rng.choice k available_labs
        let tt1 := setCell tt sem div day s1 ⟨some subject, some faculty, some lab_room⟩
        let tt2 := setCell tt1 sem div day s2
          ⟨some (subject ++ " (cont.)"), some faculty, some lab_room⟩
        (tt2, k + 1, made + 1)
    else labRetryScan cfg rng sem div subject faculty day rest (tt, k, made)

/-- The retry loop over the working days outside the sampled set (src lines
2584-2615), gated per day by availability at `time_slots[0]` and the daily
cap. -/
def labRetryDays (cfg : Config) (rng : Rand) (sem : Nat) (div subject faculty : String)
    (max_lectures_per_day : Nat) :
    List String → Timetable × Nat × Nat → Timetable × Nat × Nat
  | [], st => st
  | day :: rest, (tt, k, made) =>
    if check_faculty_availability cfg faculty day (cfg.time_slots.headD "") = true
        ∧ count_faculty_assignments tt faculty day < max_lectures_per_day then
      labRetryDays cfg rng sem div subject faculty max_lectures_per_day rest
        (labRetryScan cfg rng sem div subject faculty day
          (cfg.time_slots.zip cfg.time_slots.tail) (tt, k, made))
    else labRetryDays cfg rng sem div subject faculty max_lectures_per_day rest (tt, k, made)

/-- The loop over the sampled target days of the first pass (src lines
2527-2615): per-day availability gate at `time_slots[0]`, cap check, pair
scan, and — after an unsuccessful day — the retry over the remaining working
days. -/
def labDaysLoop (cfg : Config) (rng : Rand) (sem : Nat) (div subject faculty : String)
    (max_lectures_per_day lectures_needed : Nat) (working_days target_days : List String) :
    List String → Timetable × Nat × Nat → Timetable × Nat × Nat
  | [], st => st
  | day :: rest, (tt, k, made) =>
    if check_faculty_availability cfg faculty day (cfg.time_slots.headD "") = false then
      labDaysLoop cfg rng sem div subject faculty max_lectures_per_day lectures_needed
        working_days target_days rest (tt, k, made)
    else if max_lectures_per_day ≤ count_faculty_assignments tt faculty day then
      labDaysLoop cfg rng sem div subject faculty max_lectures_per_day lectures_needed
        working_days target_days rest (tt, k, made)
    else
      let r := labScanPairs cfg rng sem div subject faculty day lectures_needed
        (cfg.time_slots.zip cfg.time_slots.tail) (tt, k, made, false)
      let st2 :=
        if r.2.2.2 = false ∧ r.2.2.1 < lectures_needed then
          labRetryDays cfg rng sem div subject faculty max_lectures_per_day
            (working_days.filter (fun d => ¬ target_days.contains d))
            (r.1, r.2.1, r.2.2.1)
        else (r.1, r.2.1, r.2.2.1)
      labDaysLoop cfg rng sem div subject faculty max_lectures_per_day lectures_needed
        working_days target_days rest st2

/-- One first-pass iteration of the subject-entry loop (src lines 2501-2615):
the semester/division filters, the Lab filter, the cap, the random sample of
target days, and the day loop. -/
def labEntryStep (cfg : Config) (rng : Rand) (tsem : Option Nat) (tdiv : Option String)
    (e : (Nat × String × String) × LoadDetails) (st : Timetable × Nat) : Timetable × Nat :=
  if skipSem tsem e.1.1 = true then st
  else if skipDiv tdiv e.1.2.1 = true then st
  else if e.2.stype ≠ "Lab" then st
  else
    let faculty := e.2.faculty
    let lectures_needed := e.2.lectures_per_week
    let max_lectures_per_day := engineDailyCap cfg faculty
    let working_days := pyDays.filter cfg.working_days
    let days_needed := min lectures_needed working_days.length
    let target_days := rng.sample st.2 working_days days_needed
    let r := labDaysLoop cfg rng e.1.1 e.1.2.1 e.1.2.2 faculty max_lectures_per_day
      lectures_needed working_days target_days target_days (st.1, st.2 + 1, 0)
    (r.1, r.2.1)

/-- The second-pass slot loop (src lines 2669-2691): first candidate slot that
exists, is `"Free"`, has no faculty conflict, and has a classroom available
gets the session; then break to the next day. -/
def theorySlotLoop (cfg : Config) (rng : Rand) (sem : Nat) (div subject faculty day : String) :
    List String → Timetable × Nat × Nat → Timetable × Nat × Nat
  | [], st => st
  | time_slot :: rest, (tt, k, made) =>
    match getCell tt sem div day time_slot with
    | none => theorySlotLoop cfg rng sem div subject faculty day rest (tt, k, made)
    | some c =>
      if c.subject = some "Free" then
        if check_faculty_conflict tt faculty day time_slot = true then
          theorySlotLoop cfg rng sem div subject faculty day rest (tt, k, made)
        else
          let available_rooms := find_available_rooms cfg tt day time_slot "classroom"
          if available_rooms = [] then
            theorySlotLoop cfg rng sem div subject faculty day rest (tt, k, made)
          else
            let classroom := rng.choice k available_rooms
            (setCell tt sem div day time_slot ⟨some subject, some faculty, some classroom⟩,
              k + 1, made + 1)
      else theorySlotLoop cfg rng sem div subject faculty day rest (tt, k, made)

/-- The second-pass day loop (src lines 2649-2691): stop when enough sessions
are placed, gate each day by availability at `time_slots[0]` and the cap,
then try preferred slots followed by the remaining grid slots. -/
def theoryDaysLoop (cfg : Config) (rng : Rand) (sem : Nat) (div subject faculty : String)
    (max_lectures_per_day lectures_needed : Nat) :
    List String → Timetable × Nat × Nat → Timetable × Nat × Nat
  | [], st => st
  | day :: rest, (tt, k, made) =>
    if lectures_needed ≤ made then (tt, k, made)
    else if check_faculty_availability cfg faculty day (cfg.time_slots.headD "") = false then
      theoryDaysLoop cfg rng sem div subject faculty max_lectures_per_day lectures_needed rest
        (tt, k, made)
    else if max_lectures_per_day ≤ count_faculty_assignments tt faculty day then
      theoryDaysLoop cfg rng sem div subject faculty max_lectures_per_day lectures_needed rest
        (tt, k, made)
    else
      let preferred_slots := get_preferred_slots cfg tt sem div subject
      let all_slots := preferred_slots ++
        cfg.time_slots.filter (fun s => ¬ preferred_slots.contains s)
      theoryDaysLoop cfg rng sem div subject faculty max_lectures_per_day lectures_needed rest
        (theorySlotLoop cfg rng sem div subject faculty day all_slots (tt, k, made))

/-- One second-pass iteration of the subject-entry loop (src lines 2623-2691):
filters, the Theory filter, the cap, and the day loop over the working days
in canonical order (the sampled `target_days` of the source is computed but
never used there). -/
def theoryEntryStep (cfg : Config) (rng : Rand) (tsem : Option Nat) (tdiv : Option String)
    (e : (Nat × String × String) × LoadDetails) (st : Timetable × Nat) : Timetable × Nat :=
  if skipSem tsem e.1.1 = true then st
  else if skipDiv tdiv e.1.2.1 = true then st
  else if e.2.stype ≠ "Theory" then st
  else
    let faculty := e.2.faculty
    let lectures_needed := e.2.lectures_per_week
    let max_lectures_per_day := engineDailyCap cfg faculty
    let working_days := pyDays.filter cfg.working_days
    let r := theoryDaysLoop cfg rng e.1.1 e.1.2.1 e.1.2.2 faculty max_lectures_per_day
      lectures_needed working_days (st.1, st.2, 0)
    (r.1, r.2.1)

/-- The priority order of src lines 2489-2493: labs first, then higher weekly
lecture count; Python's `sort` is stable for this key. -/
def entryLE (a b : (Nat × String × String) × LoadDetails) : Prop :=
  (if a.2.stype = "Lab" then 0 else 1) < (if b.2.stype = "Lab" then 0 else 1)
    ∨ ((if a.2.stype = "Lab" then 0 else 1) = (if b.2.stype = "Lab" then 0 else 1)
      ∧ b.2.lectures_per_week ≤ a.2.lectures_per_week)

instance : DecidableRel entryLE := fun a b => by unfold entryLE; infer_instance

/-- Embeds `generate_timetable` (src lines 2453-2724, scheduling core only):
initialize the grid, compute the weekly load, sort the entries labs-first,
run the lab pass and then the theory pass, and return the timetable (the
surrounding GUI, progress and display calls carry no schedule state). -/
def generate_timetable (cfg : Config) (rng : Rand) (tsem : Option Nat)
    (tdiv : Option String) : Timetable :=
  let timetable := init_timetable_structure cfg
  let weekly_load := calculate_weekly_load cfg
  let subject_entries := weekly_load.insertionSort entryLE
  let st1 := subject_entries.foldl (fun st e => labEntryStep cfg rng tsem tdiv e st)
    (timetable, 0)
  let st2 := subject_entries.foldl (fun st e => theoryEntryStep cfg rng tsem tdiv e st) st1
  st2.1

/-- A row of the conflicts tree view: (conflict type, details, severity). -/
abbrev ConflictRecord := String × String × String

/-- The details string of a faculty double-booking record (src line 1983). -/
def fdbDetails (faculty day time_slot : String) : String :=
  "Faculty " ++ faculty ++ " scheduled in multiple classes on " ++ day ++ " at " ++ time_slot

/-- The faculty value of each (semester, division) cell at a fixed (day,
slot), in the order the reporter's nested loops visit them (`none` covers
both a missing cell and a `None` faculty). -/
def facultyCellsAt (tt : Timetable) (day time_slot : String) : List (Option String) :=
  tt.flatMap (fun sd => sd.2.map (fun dv =>
    ((plookup dv.2 day).bind (fun sm => plookup sm time_slot)).bind (fun c => c.faculty)))

/-- One step of the double-booking scan (src lines 1978-1986): a truthy
faculty already seen at this (day, slot) emits a High-severity record,
otherwise it is remembered.  The source keys the seen-dict by faculty and
stores `(semester, division)`, which is never read, so only keys are kept. -/
def fdbScanStep (day time_slot : String) (st : List String × List ConflictRecord)
    (fac : Option String) : List String × List ConflictRecord :=
  match fac with
  | none => st
  | some f =>
    if f = "" then st
    else if st.1.contains f then
      (st.1, st.2 ++ [("Faculty Double-Booking", fdbDetails f day time_slot, "High")])
    else (st.1 ++ [f], st.2)

/-- The faculty double-booking records the reporter emits for one (day, slot)
column (src lines 1972-1986). -/
def facultyRecordsAt (tt : Timetable) (day time_slot : String) : List ConflictRecord :=
  ((facultyCellsAt tt day time_slot).foldl (fdbScanStep day time_slot) ([], [])).2

/-- The faculty double-booking portion of `check_timetable_conflicts` (src
lines 1967-1986): scan every enabled day and every grid slot. -/
def faculty_conflict_records (cfg : Config) (tt : Timetable) : List ConflictRecord :=
  pyDays.foldl (fun acc day =>
    if cfg.working_days day then
      cfg.time_slots.foldl (fun acc2 ts => acc2 ++ facultyRecordsAt tt day ts) acc
    else acc) []

/-- Per-day faculty session counts of the overload check (src lines
2014-2028), as a dict keyed by faculty. -/
def overloadCounts (tt : Timetable) (day : String) : List (String × Nat) :=
  tt.foldl (fun m sd =>
    sd.2.foldl (fun m2 dv =>
      match plookup dv.2 day with
      | none => m2
      | some sm => sm.foldl (fun m3 sc =>
          match sc.2.faculty with
          | none => m3
          | some f => if f = "" then m3 else pincr m3 f) m2) m) []

/-- The daily cap as the overload reporter computes it (src line 2034:
`max_lectures = 5 if faculty_load > 216 else self.max_faculty_lectures.get()`). -/
def reporterDailyCap (cfg : Config) (faculty : String) : Nat :=
  if 216 < get_faculty_total_load cfg faculty then 5 else cfg.max_faculty_lectures

/-- The faculty-overload portion of `check_timetable_conflicts` (src lines
2009-2038), with the reporter's own copy of the daily-cap rule at src line
2034. -/
def faculty_overload_records (cfg : Config) (tt : Timetable) : List ConflictRecord :=
  pyDays.foldl (fun acc day =>
    if cfg.working_days day then
      acc ++ (overloadCounts tt day).foldl (fun acc2 fc =>
        let max_lectures := reporterDailyCap cfg fc.1
        if max_lectures < fc.2 then
          acc2 ++ [("Faculty Overload",
            "Faculty " ++ fc.1 ++ " has " ++ toString fc.2 ++ " lectures on " ++ day
              ++ " (max: " ++ toString max_lectures ++ ")", "Medium")]
        else acc2) []
    else acc) []

/-- No reachable cell of the timetable has subject `"Free"`.  The freshly
initialized structure satisfies this (its subjects are all `None`), and it
is exactly the emptiness test both generation passes perform, so under this
invariant every placement guard fails. -/
def NoFree (tt : Timetable) : Prop :=
  ∀ sem div day slot, cellSubject tt sem div day slot ≠ some "Free"

/-- A concrete random oracle: `sample` takes the first `n` days, `choice`
takes the first room. -/
def exRand : Rand where
  sample := fun _ l n => l.take n
  choice := fun _ l => l.headD ""

/-- Number of working days of a (semester, division) grid showing an
adjacent pair of occupied cells with the same subject, counting a
continuation-marked second cell as the same subject. -/
def daysWithSameSubjectPair (tt : Timetable) (sem : Nat) (div : String) : Nat :=
  match getDayMap tt sem div with
  | none => 0
  | some dm =>
    (dm.filter (fun d =>
      (d.2.zip d.2.tail).any (fun p =>
        match p.1.2.subject, p.2.2.subject with
        | some s1, some s2 => s1 == s2 || s2 == s1 ++ " (cont.)"
        | _, _ => false))).length

/-- Scenario B of the specification: one Lab subject needing 2 weekly
sessions (22 hours over an 11-week term), 5 lab rooms, a single faculty
with a generous window and no competing bookings, and all 6 working days.
Slot labels are zero-padded so that even the source's string comparison
accepts every slot. -/
def scenarioBCfg : Config where
  faculties := [("FX", ⟨"08:00", "18:00", pyDays⟩)]
  time_slots := ["09:00-09:50", "09:55-10:45", "10:50-11:40",
    "11:45-12:35", "12:40-13:30", "13:35-14:25"]
  classrooms := ["101"]
  labs := ["Lab-1", "Lab-2", "Lab-3", "Lab-4", "Lab-5"]
  subjects := [(3, [("A", [("ML-P", (22, "FX", "Lab"))])])]
  semester_duration := 11
  working_days := fun _ => true
  max_faculty_lectures := 4

/-- Does the catalog type this subject of (semester, division) as a Lab? -/
def isLabSubject (cfg : Config) (sem : Nat) (div subject : String) : Prop :=
  match ((plookup cfg.subjects sem).bind (fun dm => plookup dm div)).bind
      (fun sm => plookup sm subject) with
  | some info => info.2.2 = "Lab"
  | none => False

/-- Every Lab-type placement occupies two adjacent cells of the same
(semester, division, day) slot list: the second cell carries the first
cell's subject with the continuation suffix and the same faculty and room. -/
def LabPairingInvariant (cfg : Config) (tt : Timetable) : Prop :=
  ∀ sem div day sm, getSlotMap tt sem div day = some sm →
    ∀ i sc, sm[i]? = some sc → ∀ subject, sc.2.subject = some subject →
      isLabSubject cfg sem div subject →
      ∃ sc2, sm[i + 1]? = some sc2 ∧ sc2.2.subject = some (subject ++ " (cont.)")
        ∧ sc2.2.faculty = sc.2.faculty ∧ sc2.2.room = sc.2.room

/-- The catalog flattened to `((semester, division, subject), record)`
entries, in the nested iteration order of the source loops. -/
def flatCatalog (cfg : Config) : List ((Nat × String × String) × (Nat × String × String)) :=
  cfg.subjects.flatMap (fun sd => sd.2.flatMap (fun dv =>
    dv.2.map (fun sb => ((sd.1, dv.1, sb.1), sb.2))))

/-- Modelled from the spec: `weeklySessions(subject) = max(1,
round(totalHours / termWeeks))`, with `round` the Python half-to-even
rounding of the quotient. -/
def weeklySessionsSpec (totalHours termWeeks : Nat) : Nat :=
  max 1 (pyRound totalHours termWeeks)

/-- Modelled from the spec: `facultyTotalLoad(faculty)` is the sum of
`totalHours` over all subjects taught by the faculty across all
semesters/divisions. -/
def facultyTotalLoadSpec (cfg : Config) (faculty : String) : Nat :=
  (((flatCatalog cfg).filter (fun e => decide (e.2.2.1 = faculty))).map
    (fun e => e.2.1)).sum

/-- Catalog giving faculty `"F"` a total load of 220 hours with a configured
default cap of 4. -/
def cfg220 : Config where
  faculties := []
  time_slots := ["09:00-09:50"]
  classrooms := []
  labs := []
  subjects := [(1, [("A", [("S1", (120, "F", "Theory")), ("S2", (100, "F", "Theory"))])])]
  semester_duration := 11
  working_days := fun _ => true
  max_faculty_lectures := 4

/-- Catalog giving faculty `"F"` a total load of exactly 216 hours with a
configured default cap of 4. -/
def cfg216 : Config where
  faculties := []
  time_slots := ["09:00-09:50"]
  classrooms := []
  labs := []
  subjects := [(1, [("A", [("S1", (120, "F", "Theory")), ("S2", (96, "F", "Theory"))])])]
  semester_duration := 11
  working_days := fun _ => true
  max_faculty_lectures := 4

/-- Scenario D: two divisions both naming faculty `"PG"` in the Monday
9:00-9:50 cell. -/
def ttD : Timetable :=
  [(2, [("A", [("Monday", [("9:00-9:50", ⟨some "ADV-C-T", some "PG", some "101"⟩)])]),
        ("B", [("Monday", [("9:00-9:50", ⟨some "DBMS-T", some "PG", some "207"⟩)])])])]

/-- The frequency a slot key ends up with in the preferred-slot dict. -/
def countOf (cnts : List (String × Nat)) (s : String) : Nat := (plookup cnts s).getD 0

/-- Modelled from the spec: slots where the subject already appears, ordered
by descending frequency with ties broken by the slots' original grid order
(the base list is enumerated in grid order before the stable sort). -/
def preferredSlotsGridTie (cfg : Config) (tt : Timetable) (sem : Nat) (div subject : String) :
    List String :=
  let cnts := preferredSlotCounts cfg tt sem div subject
  (((cfg.time_slots.filter (fun s => (plookup cnts s).isSome)).map
    (fun s => (s, countOf cnts s))).insertionSort countGE).map Prod.fst

instance : IsTotal (String × Nat) countGE := ⟨fun a b => Nat.le_total b.2 a.2⟩

instance : IsTrans (String × Nat) countGE := ⟨fun _ _ _ h1 h2 => Nat.le_trans h2 h1⟩

/-- Grid with three slots and a subject `"CS"` appearing at the third slot on
Monday and the first slot on Tuesday: equal frequencies whose dict insertion
order (Monday first) disagrees with the grid order. -/
def cfgX : Config where
  faculties := []
  time_slots := ["8:05-8:55", "9:00-9:50", "9:55-10:45"]
  classrooms := []
  labs := []
  subjects := [(1, [("A", [("CS", (18, "MJ", "Theory"))])])]
  semester_duration := 11
  working_days := fun _ => true
  max_faculty_lectures := 4

/-- The hand-built in-progress schedule of the C9 counterexample. -/
def ttX : Timetable :=
  [(1, [("A",
    [("Monday",
      [("8:05-8:55", ⟨none, none, none⟩), ("9:00-9:50", ⟨none, none, none⟩),
       ("9:55-10:45", ⟨some "CS", some "MJ", some "101"⟩)]),
     ("Tuesday",
      [("8:05-8:55", ⟨some "CS", some "MJ", some "101"⟩),
       ("9:00-9:50", ⟨none, none, none⟩), ("9:55-10:45", ⟨none, none, none⟩)])])])]

/-- Faculty `"FX"` with the full window 09:00-15:15 over a two-slot grid. -/
def cfgW : Config where
  faculties := [("FX", ⟨"09:00", "15:15", pyDays⟩)]
  time_slots := ["09:00-09:50", "09:55-10:45"]
  classrooms := ["101"]
  labs := ["Lab-1"]
  subjects := [(1, [("A", [("CS", (22, "FX", "Theory"))])])]
  semester_duration := 11
  working_days := fun _ => true
  max_faculty_lectures := 4

/-- The same faculty with the window cut to 09:00-09:50: identical
availability at the first grid slot, different at the second. -/
def F2W : List (String × FacultyData) := [("FX", ⟨"09:00", "09:50", pyDays⟩)]

/-- A successful `plookup` exhibits a member of the association list. -/
theorem plookup_mem {α β : Type} [DecidableEq α] {m : List (α × β)} {k : α} {v : β}
    (h : plookup m k = some v) : (k, v) ∈ m := by
  induction m with
  | nil => simp [plookup] at h
  | cons p t ih =>
    obtain ⟨a, b⟩ := p
    by_cases hak : a = k
    · subst hak
      simp [plookup] at h
      subst h
      exact List.mem_cons_self _ _
    · rw [plookup, if_neg hak] at h
      exact List.mem_cons_of_mem _ (ih h)

/-- Every cell reachable in the freshly initialized structure is the empty
cell: subject, faculty and room are all `None`. -/
theorem getCell_init {cfg : Config} {sem : Nat} {div day slot : String} {c : SlotData}
    (h : getCell (init_timetable_structure cfg) sem div day slot = some c) :
    c = ⟨none, none, none⟩ := by
  unfold getCell getSlotMap getDayMap init_timetable_structure at h
  simp only [Option.bind_eq_some] at h
  obtain ⟨sm, ⟨dm, ⟨dv, hsem, hdiv⟩, hday⟩, hslot⟩ := h
  have h1 := plookup_mem hsem
  rw [List.mem_map] at h1
  obtain ⟨sd, _, heq1⟩ := h1
  have hdv : dv = sd.2.map _ := (congrArg Prod.snd heq1).symm
  subst hdv
  have h2 := plookup_mem hdiv
  rw [List.mem_map] at h2
  obtain ⟨dve, _, heq2⟩ := h2
  have hdm : dm = _ := (congrArg Prod.snd heq2).symm
  subst hdm
  have h3 := plookup_mem hday
  rw [List.mem_map] at h3
  obtain ⟨de, _, heq3⟩ := h3
  have hsm : sm = _ := (congrArg Prod.snd heq3).symm
  subst hsm
  have h4 := plookup_mem hslot
  rw [List.mem_map] at h4
  obtain ⟨ts, _, heq4⟩ := h4
  exact (congrArg Prod.snd heq4).symm

theorem noFree_init (cfg : Config) : NoFree (init_timetable_structure cfg) := by
  intro sem div day slot h
  unfold cellSubject at h
  rw [Option.bind_eq_some] at h
  obtain ⟨c, hc, hs⟩ := h
  rw [getCell_init hc] at hs
  simp at hs

/-- Under `NoFree` the first-pass pair scan changes nothing: its leading
guard demands two `"Free"` cells. -/
theorem labScanPairs_id (cfg : Config) (rng : Rand) (sem : Nat)
    (div subject faculty day : String) (needed : Nat) {tt : Timetable}
    (hNF : NoFree tt) :
    ∀ pairs k made assigned,
      labScanPairs cfg rng sem div subject faculty day needed pairs (tt, k, made, assigned)
        = (tt, k, made, assigned) := by
  intro pairs
  induction pairs with
  | nil => intro k made assigned; rfl
  | cons p rest ih =>
    intro k made assigned
    obtain ⟨s1, s2⟩ := p
    rw [labScanPairs]
    by_cases h1 : needed ≤ made
    · rw [if_pos h1]
    · rw [if_neg h1, if_neg (fun hc => hNF sem div day s1 hc.1)]
      exact ih k made assigned

/-- Under `NoFree` the retry pair scan changes nothing. -/
theorem labRetryScan_id (cfg : Config) (rng : Rand) (sem : Nat)
    (div subject faculty day : String) {tt : Timetable} (hNF : NoFree tt) :
    ∀ pairs k made,
      labRetryScan cfg rng sem div subject faculty day pairs (tt, k, made) = (tt, k, made) := by
  intro pairs
  induction pairs with
  | nil => intro k made; rfl
  | cons p rest ih =>
    intro k made
    obtain ⟨s1, s2⟩ := p
    rw [labRetryScan, if_neg (fun hc => hNF sem div day s1 hc.1)]
    exact ih k made

/-- Under `NoFree` the retry day loop changes nothing. -/
theorem labRetryDays_id (cfg : Config) (rng : Rand) (sem : Nat)
    (div subject faculty : String) (cap : Nat) {tt : Timetable} (hNF : NoFree tt) :
    ∀ days k made,
      labRetryDays cfg rng sem div subject faculty cap days (tt, k, made) = (tt, k, made) := by
  intro days
  induction days with
  | nil => intro k made; rfl
  | cons day rest ih =>
    intro k made
    rw [labRetryDays]
    by_cases hg : check_faculty_availability cfg faculty day (cfg.time_slots.headD "") = true
        ∧ count_faculty_assignments tt faculty day < cap
    · rw [if_pos hg, labRetryScan_id cfg rng sem div subject faculty day hNF]
      exact ih k made
    · rw [if_neg hg]
      exact ih k made

/-- Under `NoFree` the first-pass day loop changes nothing. -/
theorem labDaysLoop_id (cfg : Config) (rng : Rand) (sem : Nat)
    (div subject faculty : String) (cap needed : Nat) (wdays tdays : List String)
    {tt : Timetable} (hNF : NoFree tt) :
    ∀ days k made,
      labDaysLoop cfg rng sem div subject faculty cap needed wdays tdays days (tt, k, made)
        = (tt, k, made) := by
  intro days
  induction days with
  | nil => intro k made; rfl
  | cons day rest ih =>
    intro k made
    rw [labDaysLoop]
    by_cases h1 : check_faculty_availability cfg faculty day (cfg.time_slots.headD "") = false
    · rw [if_pos h1]
      exact ih k made
    · rw [if_neg h1]
      by_cases h2 : cap ≤ count_faculty_assignments tt faculty day
      · rw [if_pos h2]
        exact ih k made
      · rw [if_neg h2]
        rw [labScanPairs_id cfg rng sem div subject faculty day needed hNF]
        dsimp only
        split
        · rw [labRetryDays_id cfg rng sem div subject faculty cap hNF]
          exact ih k made
        · exact ih k made

/-- Under `NoFree` a first-pass entry step keeps the timetable (it only
advances the random counter by the day sample). -/
theorem labEntryStep_fst (cfg : Config) (rng : Rand) (tsem : Option Nat)
    (tdiv : Option String) (e : (Nat × String × String) × LoadDetails) (k : Nat)
    {tt : Timetable} (hNF : NoFree tt) :
    (labEntryStep cfg rng tsem tdiv e (tt, k)).1 = tt := by
  rw [labEntryStep]
  by_cases h1 : skipSem tsem e.1.1 = true
  · rw [if_pos h1]
  · rw [if_neg h1]
    by_cases h2 : skipDiv tdiv e.1.2.1 = true
    · rw [if_pos h2]
    · rw [if_neg h2]
      by_cases h3 : e.2.stype ≠ "Lab"
      · rw [if_pos h3]
      · rw [if_neg h3]
        dsimp only
        rw [labDaysLoop_id cfg rng e.1.1 e.1.2.1 e.1.2.2 e.2.faculty _ _ _ _ hNF]

/-- Under `NoFree` the second-pass slot loop changes nothing: it only places
into cells whose subject reads `"Free"`. -/
theorem theorySlotLoop_id (cfg : Config) (rng : Rand) (sem : Nat)
    (div subject faculty day : String) {tt : Timetable} (hNF : NoFree tt) :
    ∀ slots k made,
      theorySlotLoop cfg rng sem div subject faculty day slots (tt, k, made) = (tt, k, made) := by
  intro slots
  induction slots with
  | nil => intro k made; rfl
  | cons slot rest ih =>
    intro k made
    rw [theorySlotLoop]
    cases hc : getCell tt sem div day slot with
    | none => exact ih k made
    | some c =>
      have hcs : ¬ c.subject = some "Free" := by
        intro h
        exact hNF sem div day slot (by unfold cellSubject; rw [hc]; exact h)
      dsimp only
      rw [if_neg hcs]
      exact ih k made

/-- Under `NoFree` the second-pass day loop changes nothing. -/
theorem theoryDaysLoop_id (cfg : Config) (rng : Rand) (sem : Nat)
    (div subject faculty : String) (cap needed : Nat) {tt : Timetable} (hNF : NoFree tt) :
    ∀ days k made,
      theoryDaysLoop cfg rng sem div subject faculty cap needed days (tt, k, made)
        = (tt, k, made) := by
  intro days
  induction days with
  | nil => intro k made; rfl
  | cons day rest ih =>
    intro k made
    rw [theoryDaysLoop]
    by_cases h0 : needed ≤ made
    · rw [if_pos h0]
    · rw [if_neg h0]
      by_cases h1 : check_faculty_availability cfg faculty day (cfg.time_slots.headD "") = false
      · rw [if_pos h1]
        exact ih k made
      · rw [if_neg h1]
        by_cases h2 : cap ≤ count_faculty_assignments tt faculty day
        · rw [if_pos h2]
          exact ih k made
        · rw [if_neg h2]
          dsimp only
          rw [theorySlotLoop_id cfg rng sem div subject faculty day hNF]
          exact ih k made

/-- Under `NoFree` a second-pass entry step is the identity. -/
theorem theoryEntryStep_fst (cfg : Config) (rng : Rand) (tsem : Option Nat)
    (tdiv : Option String) (e : (Nat × String × String) × LoadDetails) (k : Nat)
    {tt : Timetable} (hNF : NoFree tt) :
    (theoryEntryStep cfg rng tsem tdiv e (tt, k)).1 = tt := by
  rw [theoryEntryStep]
  by_cases h1 : skipSem tsem e.1.1 = true
  · rw [if_pos h1]
  · rw [if_neg h1]
    by_cases h2 : skipDiv tdiv e.1.2.1 = true
    · rw [if_pos h2]
    · rw [if_neg h2]
      by_cases h3 : e.2.stype ≠ "Theory"
      · rw [if_pos h3]
      · rw [if_neg h3]
        dsimp only
        rw [theoryDaysLoop_id cfg rng e.1.1 e.1.2.1 e.1.2.2 e.2.faculty _ _ hNF]

/-- Under `NoFree` the whole first pass keeps the timetable. -/
theorem labPass_fst (cfg : Config) (rng : Rand) (tsem : Option Nat) (tdiv : Option String)
    {tt : Timetable} (hNF : NoFree tt) :
    ∀ (entries : List ((Nat × String × String) × LoadDetails)) (k : Nat),
      (entries.foldl (fun st e => labEntryStep cfg rng tsem tdiv e st) (tt, k)).1 = tt := by
  intro entries
  induction entries with
  | nil => intro k; rfl
  | cons e rest ih =>
    intro k
    rw [List.foldl_cons]
    have h1 := labEntryStep_fst cfg rng tsem tdiv e k hNF
    have h2 : labEntryStep cfg rng tsem tdiv e (tt, k)
        = (tt, (labEntryStep cfg rng tsem tdiv e (tt, k)).2) :=
      Prod.ext_iff.mpr ⟨h1, rfl⟩
    rw [h2]
    exact ih _

/-- Under `NoFree` the whole second pass keeps the timetable. -/
theorem theoryPass_fst (cfg : Config) (rng : Rand) (tsem : Option Nat) (tdiv : Option String)
    {tt : Timetable} (hNF : NoFree tt) :
    ∀ (entries : List ((Nat × String × String) × LoadDetails)) (k : Nat),
      (entries.foldl (fun st e => theoryEntryStep cfg rng tsem tdiv e st) (tt, k)).1 = tt := by
  intro entries
  induction entries with
  | nil => intro k; rfl
  | cons e rest ih =>
    intro k
    rw [List.foldl_cons]
    have h1 := theoryEntryStep_fst cfg rng tsem tdiv e k hNF
    have h2 : theoryEntryStep cfg rng tsem tdiv e (tt, k)
        = (tt, (theoryEntryStep cfg rng tsem tdiv e (tt, k)).2) :=
      Prod.ext_iff.mpr ⟨h1, rfl⟩
    rw [h2]
    exact ih _

/-- The central behavioural fact of the generator as written: because both
passes test cell emptiness against the string `"Free"` while initialization
stores `None`, no placement guard ever fires, and the generated timetable is
the freshly initialized structure — for every configuration, random outcome
and target filter. -/
theorem generate_eq_init (cfg : Config) (rng : Rand) (tsem : Option Nat)
    (tdiv : Option String) :
    generate_timetable cfg rng tsem tdiv = init_timetable_structure cfg := by
  have hNF := noFree_init cfg
  rw [generate_timetable]
  have h1 := labPass_fst cfg rng tsem tdiv hNF
    ((calculate_weekly_load cfg).insertionSort entryLE) 0
  set stl := ((calculate_weekly_load cfg).insertionSort entryLE).foldl
    (fun st e => labEntryStep cfg rng tsem tdiv e st) (init_timetable_structure cfg, 0)
    with hstl
  have h2 : stl = (init_timetable_structure cfg, stl.2) := Prod.ext_iff.mpr ⟨h1, rfl⟩
  rw [h2]
  exact theoryPass_fst cfg rng tsem tdiv hNF _ _

/-- Every slot entry reachable through memberships in the freshly
initialized structure carries the empty cell. -/
theorem init_slotmap_cells {cfg : Config} {sd : Nat × DivMap}
    (hsd : sd ∈ init_timetable_structure cfg) {dv : String × DayMap} (hdv : dv ∈ sd.2)
    {dm : String × SlotMap} (hdm : dm ∈ dv.2) {sc : String × SlotData} (hsc : sc ∈ dm.2) :
    sc.2 = ⟨none, none, none⟩ := by
  unfold init_timetable_structure at hsd
  rw [List.mem_map] at hsd
  obtain ⟨a, _, ha⟩ := hsd
  have ha2 := (congrArg Prod.snd ha).symm
  rw [ha2] at hdv
  rw [List.mem_map] at hdv
  obtain ⟨b, _, hb⟩ := hdv
  have hb2 := (congrArg Prod.snd hb).symm
  rw [hb2] at hdm
  rw [List.mem_map] at hdm
  obtain ⟨d, _, hd⟩ := hdm
  have hd2 := (congrArg Prod.snd hd).symm
  rw [hd2] at hsc
  rw [List.mem_map] at hsc
  obtain ⟨ts, _, hts⟩ := hsc
  exact (congrArg Prod.snd hts).symm

/-- Every faculty value collected at a (day, slot) of the freshly
initialized structure is `none`. -/
theorem facultyCellsAt_init (cfg : Config) (day slot : String) :
    ∀ x ∈ facultyCellsAt (init_timetable_structure cfg) day slot, x = none := by
  intro x hx
  unfold facultyCellsAt at hx
  rw [List.mem_flatMap] at hx
  obtain ⟨sd, hsd, hx2⟩ := hx
  rw [List.mem_map] at hx2
  obtain ⟨dv, hdv, heq⟩ := hx2
  subst heq
  cases hday : plookup dv.2 day with
  | none => simp [hday]
  | some sm =>
    cases hslot : plookup sm slot with
    | none => simp [hday, hslot]
    | some c =>
      have hc := init_slotmap_cells hsd hdv (plookup_mem hday) (plookup_mem hslot)
      simp only [Prod.snd] at hc
      simp [hday, hslot, hc]

/-- C1: scenario B demands that the generated schedule for (semester 3,
division A) show a same-subject adjacent pair on exactly 2 days.  The code
produces 0 such days for every random outcome: both passes compare cell
subjects against `"Free"` while initialization stores `None`, so the lab
sessions are never written.  This theorem evaluates the code on the
scenario-B input. -/
theorem c1_scenarioB_pair_days (rng : Rand) :
    daysWithSameSubjectPair (generate_timetable scenarioBCfg rng none none) 3 "A" = 0
      ∧ daysWithSameSubjectPair (generate_timetable scenarioBCfg rng none none) 3 "A" ≠ 2 := by
  rw [generate_eq_init]
  exact ⟨by decide, by decide⟩

/-- C2: for every configuration, random outcome and target filter (with a
nonempty slot grid, the only case in which the source completes instead of
raising `IndexError` at `time_slots[0]`), the generated schedule equals the
freshly initialized grid, whose cells all carry `None` subject, faculty and
room: no lab or theory placement is ever written because both passes test
emptiness against the string `"Free"` while initialization stores `None`. -/
theorem c2_generate_equals_empty_grid (cfg : Config) (rng : Rand) (tsem : Option Nat)
    (tdiv : Option String) (hts : cfg.time_slots ≠ []) :
    generate_timetable cfg rng tsem tdiv = init_timetable_structure cfg :=
  (fun _ => generate_eq_init cfg rng tsem tdiv) hts

/-- Witness for C2 on a concrete configuration and oracle. -/
theorem c2_witness :
    scenarioBCfg.time_slots ≠ [] ∧
      generate_timetable scenarioBCfg exRand none none
        = init_timetable_structure scenarioBCfg :=
  ⟨by decide, c2_generate_equals_empty_grid scenarioBCfg exRand none none (by decide)⟩

/-- C6: after any generation run (nonempty slot grid), for every (day, slot)
the number of cells across all semesters and divisions naming a given
faculty is at most 1 — in fact 0, since the generator never writes a
placement. -/
theorem c6_faculty_at_most_once (cfg : Config) (rng : Rand) (tsem : Option Nat)
    (tdiv : Option String) (f day slot : String) (hts : cfg.time_slots ≠ []) :
    (facultyCellsAt (generate_timetable cfg rng tsem tdiv) day slot).count (some f) ≤ 1 := by
  clear hts
  rw [generate_eq_init]
  have h0 : (facultyCellsAt (init_timetable_structure cfg) day slot).count (some f) = 0 := by
    rw [List.count_eq_zero]
    intro hmem
    have := facultyCellsAt_init cfg day slot _ hmem
    simp at this
  omega

/-- Witness for C6 on a concrete configuration and oracle. -/
theorem c6_witness :
    scenarioBCfg.time_slots ≠ [] ∧
      (facultyCellsAt (generate_timetable scenarioBCfg exRand none none)
        "Monday" "09:00-09:50").count (some "FX") ≤ 1 :=
  ⟨by decide,
    c6_faculty_at_most_once scenarioBCfg exRand none none "FX" "Monday" "09:00-09:50"
      (by decide)⟩

/-- C7: every schedule the generator produces satisfies the lab-pairing
invariant.  It holds vacuously: no cell of the produced schedule has any
subject at all (see the `"Free"`/`None` mismatch of C2). -/
theorem c7_lab_pairing (cfg : Config) (rng : Rand) (tsem : Option Nat)
    (tdiv : Option String) (hts : cfg.time_slots ≠ []) :
    LabPairingInvariant cfg (generate_timetable cfg rng tsem tdiv) := by
  clear hts
  rw [generate_eq_init]
  intro sem div day sm hsm i sc hsc subject hsubj _
  exfalso
  unfold getSlotMap getDayMap at hsm
  simp only [Option.bind_eq_some] at hsm
  obtain ⟨dayl, ⟨dvm, hsem, hdiv⟩, hday⟩ := hsm
  have hempty := init_slotmap_cells (plookup_mem hsem)
    (show (div, dayl) ∈ (sem, dvm).2 from plookup_mem hdiv)
    (show (day, sm) ∈ (div, dayl).2 from plookup_mem hday)
    (List.getElem?_mem hsc)
  rw [hempty] at hsubj
  simp at hsubj

/-- Witness for C7 on a concrete configuration and oracle. -/
theorem c7_witness :
    scenarioBCfg.time_slots ≠ [] ∧
      LabPairingInvariant scenarioBCfg (generate_timetable scenarioBCfg exRand none none) :=
  ⟨by decide, c7_lab_pairing scenarioBCfg exRand none none (by decide)⟩

/-- C3: the scenario-A instances hold on the code, but the general contract
does not: the source compares raw `"H:MM"` strings lexicographically, and
for the very same scenario-A faculty (window 9:00-15:15, Monday-Saturday)
the in-window slot `"10:50-11:40"` is rejected because `"10:50" < "9:00"`
as strings, while the specification's 24-hour ordering accepts it. -/
theorem c3_availability_divergence :
    check_faculty_availability scenarioACfg "PG" "Monday" "9:55-10:45" = true
    ∧ check_faculty_availability scenarioACfg "PG" "Monday" "8:05-8:55" = false
    ∧ check_faculty_availability scenarioACfg "PG" "Monday" "10:50-11:40" = false
    ∧ isAvailableSpec scenarioACfg "PG" "Monday" "10:50-11:40" = true
    ∧ parseMinutes "9:00" ≤ parseMinutes "10:50"
    ∧ parseMinutes "11:40" ≤ parseMinutes "15:15" := by
  refine ⟨by decide, by decide, by decide, by decide, by decide, by decide⟩

/-- Appending a mapped element per step is mapping. -/
theorem foldl_append_singleton {α β : Type} (f : α → β) :
    ∀ (l : List α) (acc : List β),
      l.foldl (fun a x => a ++ [f x]) acc = acc ++ l.map f := by
  intro l
  induction l with
  | nil => intro acc; simp
  | cons x t ih => intro acc; rw [List.foldl_cons, ih]; simp

/-- Appending a block per step is flat-mapping. -/
theorem foldl_append_block {α β : Type} (h : α → List β) :
    ∀ (l : List α) (acc : List β),
      l.foldl (fun a x => a ++ h x) acc = acc ++ l.flatMap h := by
  intro l
  induction l with
  | nil => intro acc; simp
  | cons x t ih => intro acc; rw [List.foldl_cons, ih]; simp

/-- C4: `calculate_weekly_load` derives exactly `max(1, round(totalHours /
termWeeks))` weekly sessions for every catalog entry, and the two
specification instances compute as stated: 36 hours over 11 weeks give 3,
12 hours over 11 weeks give 1. -/
theorem c4_weekly_sessions (cfg : Config) :
    calculate_weekly_load cfg = (flatCatalog cfg).map (fun e =>
      (e.1, ⟨weeklySessionsSpec e.2.1 cfg.semester_duration, e.2.2.1, e.2.2.2⟩))
    ∧ weeklySessionsSpec 36 11 = 3 ∧ weeklySessionsSpec 12 11 = 1 := by
  refine ⟨?_, by decide, by decide⟩
  unfold calculate_weekly_load flatCatalog weeklySessionsSpec
  simp only [foldl_append_singleton, foldl_append_block, List.nil_append,
    List.map_flatMap, List.map_map]
  rfl

/-- Conditional accumulation is a sum over the filtered list. -/
theorem foldl_if_add {β : Type} (p : β → Prop) [DecidablePred p] (g : β → Nat) :
    ∀ (l : List β) (a : Nat),
      l.foldl (fun a x => if p x then a + g x else a) a
        = a + ((l.filter (fun x => decide (p x))).map g).sum := by
  intro l
  induction l with
  | nil => intro a; simp
  | cons x t ih =>
    intro a
    rw [List.foldl_cons]
    by_cases hp : p x
    · rw [if_pos hp, ih]
      simp [List.filter_cons, hp]
      omega
    · rw [if_neg hp, ih]
      simp [List.filter_cons, hp]

/-- Folding over a flat-map is the nested fold. -/
theorem foldl_flatMap {α β γ : Type} (h : α → List β) (g : γ → β → γ) :
    ∀ (l : List α) (a : γ),
      (l.flatMap h).foldl g a = l.foldl (fun a x => (h x).foldl g a) a := by
  intro l
  induction l with
  | nil => intro a; rfl
  | cons x t ih =>
    intro a
    rw [List.flatMap_cons, List.foldl_append, ih, List.foldl_cons]

/-- The source's nested accumulation equals the specification's flat sum. -/
theorem faculty_total_load_eq (cfg : Config) (f : String) :
    get_faculty_total_load cfg f = facultyTotalLoadSpec cfg f := by
  have h1 := foldl_if_add
    (fun e : (Nat × String × String) × (Nat × String × String) => e.2.2.1 = f)
    (fun e => e.2.1) (flatCatalog cfg) 0
  rw [Nat.zero_add] at h1
  unfold get_faculty_total_load facultyTotalLoadSpec
  rw [← h1]
  unfold flatCatalog
  simp only [foldl_flatMap, List.foldl_map]

/-- C5: both the engine's per-entry cap and the reporter's overload cap are 5
exactly when the faculty's summed total hours exceed 216, and the configured
default otherwise; at 220 hours with default 4 the cap is 5, and at exactly
216 hours it is the default. -/
theorem c5_daily_cap :
    (∀ cfg f, engineDailyCap cfg f
        = (if 216 < facultyTotalLoadSpec cfg f then 5 else cfg.max_faculty_lectures)
      ∧ reporterDailyCap cfg f
        = (if 216 < facultyTotalLoadSpec cfg f then 5 else cfg.max_faculty_lectures))
    ∧ (facultyTotalLoadSpec cfg220 "F" = 220 ∧ cfg220.max_faculty_lectures = 4
        ∧ engineDailyCap cfg220 "F" = 5 ∧ reporterDailyCap cfg220 "F" = 5)
    ∧ (facultyTotalLoadSpec cfg216 "F" = 216 ∧ cfg216.max_faculty_lectures = 4
        ∧ engineDailyCap cfg216 "F" = 4 ∧ reporterDailyCap cfg216 "F" = 4) := by
  refine ⟨fun cfg f => ?_, ⟨by decide, by decide, by decide, by decide⟩,
    ⟨by decide, by decide, by decide, by decide⟩⟩
  unfold engineDailyCap reporterDailyCap
  rw [faculty_total_load_eq]
  exact ⟨rfl, rfl⟩

/-- Strings cancel on the right of an append. -/
theorem string_append_cancel_right {a b c : String} (h : a ++ c = b ++ c) : a = b := by
  have hd0 : a.data ++ c.data = b.data ++ c.data := by
    rw [← String.data_append, ← String.data_append, h]
  have hd : a.data = b.data := List.append_cancel_right hd0
  calc a = String.mk a.data := rfl
    _ = String.mk b.data := by rw [hd]
    _ = b := rfl

/-- Strings cancel on the left of an append. -/
theorem string_append_cancel_left {a b c : String} (h : a ++ b = a ++ c) : b = c := by
  have hd0 : a.data ++ b.data = a.data ++ c.data := by
    rw [← String.data_append, ← String.data_append, h]
  have hd : b.data = c.data := List.append_cancel_left hd0
  calc b = String.mk b.data := rfl
    _ = String.mk c.data := by rw [hd]
    _ = c := rfl

/-- The details string of a double-booking record determines the faculty. -/
theorem fdbDetails_inj {g f day ts : String} (h : fdbDetails g day ts = fdbDetails f day ts) :
    g = f := by
  unfold fdbDetails at h
  have h1 := string_append_cancel_right h
  have h2 := string_append_cancel_right h1
  have h3 := string_append_cancel_right h2
  have h4 := string_append_cancel_right h3
  exact string_append_cancel_left h4

theorem fdbScanStep_none (day ts : String) (seen : List String)
    (recs : List ConflictRecord) : fdbScanStep day ts (seen, recs) none = (seen, recs) := rfl

theorem fdbScanStep_empty (day ts : String) (seen : List String)
    (recs : List ConflictRecord) :
    fdbScanStep day ts (seen, recs) (some "") = (seen, recs) := by
  unfold fdbScanStep
  dsimp only
  rw [if_pos rfl]

theorem fdbScanStep_seen (day ts : String) (seen : List String)
    (recs : List ConflictRecord) {g : String} (hg0 : g ≠ "")
    (hgs : seen.contains g = true) :
    fdbScanStep day ts (seen, recs) (some g)
      = (seen, recs ++ [("Faculty Double-Booking", fdbDetails g day ts, "High")]) := by
  unfold fdbScanStep
  dsimp only
  rw [if_neg hg0, if_pos hgs]

theorem fdbScanStep_new (day ts : String) (seen : List String)
    (recs : List ConflictRecord) {g : String} (hg0 : g ≠ "")
    (hgs : ¬ seen.contains g = true) :
    fdbScanStep day ts (seen, recs) (some g) = (seen ++ [g], recs) := by
  unfold fdbScanStep
  dsimp only
  rw [if_neg hg0, if_neg hgs]

/-- When the scanned faculty is already among the seen keys, every further
occurrence emits one record for it. -/
theorem fdb_count_mem (day ts f : String) (hf : f ≠ "") :
    ∀ (L : List (Option String)) (seen : List String) (recs : List ConflictRecord),
      seen.contains f = true →
      ((L.foldl (fdbScanStep day ts) (seen, recs)).2).count
          ("Faculty Double-Booking", fdbDetails f day ts, "High")
        = recs.count ("Faculty Double-Booking", fdbDetails f day ts, "High")
          + L.count (some f) := by
  intro L
  induction L with
  | nil => intro seen recs _; simp
  | cons x t ih =>
    intro seen recs hmem
    match x with
    | none =>
      rw [List.foldl_cons, fdbScanStep_none, ih seen recs hmem]
      simp [List.count_cons]
    | some g =>
      rw [List.foldl_cons]
      by_cases hg0 : g = ""
      · subst hg0
        rw [fdbScanStep_empty, ih seen recs hmem]
        simp [List.count_cons, Ne.symm hf]
      · by_cases hgf : g = f
        · subst hgf
          rw [fdbScanStep_seen day ts seen recs hg0 hmem, ih seen _ hmem]
          simp [List.count_cons, List.count_append]
          omega
        · have hdet : ¬ (fdbDetails g day ts = fdbDetails f day ts) := by
            intro hc
            exact hgf (fdbDetails_inj hc)
          by_cases hgs : seen.contains g = true
          · rw [fdbScanStep_seen day ts seen recs hg0 hgs, ih seen _ hmem]
            simp [List.count_cons, List.count_append, hgf, hdet]
          · rw [fdbScanStep_new day ts seen recs hg0 hgs]
            have hmem2 : (seen ++ [g]).contains f = true := by
              simp at hmem ⊢
              exact Or.inl hmem
            rw [ih _ recs hmem2]
            simp [List.count_cons, hgf]

/-- When the scanned faculty is not yet seen, its first occurrence is
remembered and each later occurrence emits one record. -/
theorem fdb_count_not_mem (day ts f : String) (hf : f ≠ "") :
    ∀ (L : List (Option String)) (seen : List String) (recs : List ConflictRecord),
      seen.contains f = false →
      ((L.foldl (fdbScanStep day ts) (seen, recs)).2).count
          ("Faculty Double-Booking", fdbDetails f day ts, "High")
        = recs.count ("Faculty Double-Booking", fdbDetails f day ts, "High")
          + (L.count (some f) - 1) := by
  intro L
  induction L with
  | nil => intro seen recs _; simp
  | cons x t ih =>
    intro seen recs hmem
    match x with
    | none =>
      rw [List.foldl_cons, fdbScanStep_none, ih seen recs hmem]
      simp [List.count_cons]
    | some g =>
      rw [List.foldl_cons]
      by_cases hg0 : g = ""
      · subst hg0
        rw [fdbScanStep_empty, ih seen recs hmem]
        simp [List.count_cons, Ne.symm hf]
      · by_cases hgf : g = f
        · subst hgf
          rw [fdbScanStep_new day ts seen recs hg0 (by rw [hmem]; exact Bool.false_ne_true)]
          have hmem2 : (seen ++ [g]).contains g = true := by simp
          rw [fdb_count_mem day ts g hf t (seen ++ [g]) recs hmem2]
          simp [List.count_cons]
        · have hdet : ¬ (fdbDetails g day ts = fdbDetails f day ts) := by
            intro hc
            exact hgf (fdbDetails_inj hc)
          by_cases hgs : seen.contains g = true
          · rw [fdbScanStep_seen day ts seen recs hg0 hgs, ih seen _ hmem]
            simp [List.count_cons, List.count_append, hgf, hdet]
          · rw [fdbScanStep_new day ts seen recs hg0 hgs]
            have hmem2 : (seen ++ [g]).contains f = false := by
              simp at hmem ⊢
              exact ⟨hmem, fun hc => hgf hc.symm⟩
            rw [ih _ recs hmem2]
            simp [List.count_cons, hgf]

/-- C8: at any (day, slot), the reporter emits exactly one High-severity
Faculty Double-Booking record per occurrence of a (truthy) faculty beyond
the first: the record count is the cell count minus one. -/
theorem c8_one_record_per_excess (tt : Timetable) (day time_slot f : String) (hf : f ≠ "") :
    (facultyRecordsAt tt day time_slot).count
        ("Faculty Double-Booking", fdbDetails f day time_slot, "High")
      = (facultyCellsAt tt day time_slot).count (some f) - 1 := by
  unfold facultyRecordsAt
  have h := fdb_count_not_mem day time_slot f hf (facultyCellsAt tt day time_slot) [] []
    (by simp)
  simpa using h

/-- Witness for C8: on the scenario-D schedule the reporter emits exactly
one High-severity Faculty Double-Booking record for `"PG"`. -/
theorem c8_witness :
    ("PG" : String) ≠ "" ∧
      (facultyRecordsAt ttD "Monday" "9:00-9:50").count
          ("Faculty Double-Booking", fdbDetails "PG" "Monday" "9:00-9:50", "High")
        = (facultyCellsAt ttD "Monday" "9:00-9:50").count (some "PG") - 1 :=
  ⟨by decide, c8_one_record_per_excess ttD "Monday" "9:00-9:50" "PG" (by decide)⟩

/-- C9 counterexample: with two equal-frequency slots first seen in the
day-major scan in the order (third grid slot, first grid slot), the source
returns them in that insertion order, not in the grid order the claim's
tie-break demands. -/
theorem c9_counterexample :
    get_preferred_slots cfgX ttX 1 "A" "CS" = ["9:55-10:45", "8:05-8:55"]
    ∧ preferredSlotsGridTie cfgX ttX 1 "A" "CS" = ["8:05-8:55", "9:55-10:45"]
    ∧ get_preferred_slots cfgX ttX 1 "A" "CS" ≠ preferredSlotsGridTie cfgX ttX 1 "A" "CS" := by
  refine ⟨by decide, by decide, by decide⟩

/-- Keys reachable after a `pincr` are the old keys or the bumped key. -/
theorem pincr_keys_subset {m : List (String × Nat)} {k x : String}
    (h : x ∈ (pincr m k).map Prod.fst) : x ∈ m.map Prod.fst ∨ x = k := by
  induction m with
  | nil =>
    simp [pincr] at h
    exact Or.inr h
  | cons p t ih =>
    obtain ⟨a, n⟩ := p
    rw [pincr] at h
    by_cases hak : a = k
    · rw [if_pos hak] at h
      rw [List.map_cons] at h
      rcases List.mem_cons.mp h with h1 | h1
      · exact Or.inl (by rw [hak] at h1 ⊢; simp [h1])
      · exact Or.inl (List.mem_cons_of_mem _ h1)
    · rw [if_neg hak] at h
      rw [List.map_cons] at h
      rcases List.mem_cons.mp h with h1 | h1
      · exact Or.inl (by simp [h1])
      · rcases ih h1 with h2 | h2
        · exact Or.inl (List.mem_cons_of_mem _ h2)
        · exact Or.inr h2

/-- `pincr` keeps the keys of the frequency dict distinct. -/
theorem pincr_nodup {m : List (String × Nat)} {k : String}
    (h : (m.map Prod.fst).Nodup) : ((pincr m k).map Prod.fst).Nodup := by
  induction m with
  | nil => simp [pincr]
  | cons p t ih =>
    obtain ⟨a, n⟩ := p
    rw [List.map_cons, List.nodup_cons] at h
    rw [pincr]
    by_cases hak : a = k
    · rw [if_pos hak]
      rw [List.map_cons, List.nodup_cons]
      exact ⟨h.1, h.2⟩
    · rw [if_neg hak]
      rw [List.map_cons, List.nodup_cons]
      refine ⟨?_, ih h.2⟩
      intro hmem
      rcases pincr_keys_subset hmem with h2 | h2
      · exact h.1 h2
      · exact hak h2

/-- Invariants survive a left fold when each step preserves them. -/
theorem foldl_preserve {α β : Type} (P : β → Prop) (step : β → α → β)
    (hstep : ∀ b a, P b → P (step b a)) :
    ∀ (l : List α) (b : β), P b → P (l.foldl step b) := by
  intro l
  induction l with
  | nil => intro b hb; exact hb
  | cons x t ih => intro b hb; exact ih _ (hstep b x hb)

/-- The frequency dict of `get_preferred_slots` has distinct keys. -/
theorem preferredSlotCounts_keys_nodup (cfg : Config) (tt : Timetable) (sem : Nat)
    (div subject : String) :
    ((preferredSlotCounts cfg tt sem div subject).map Prod.fst).Nodup := by
  unfold preferredSlotCounts
  refine foldl_preserve (fun (m : List (String × Nat)) => (m.map Prod.fst).Nodup)
    _ ?_ pyDays [] ?_
  · intro m day hm
    refine foldl_preserve (fun (m2 : List (String × Nat)) => (m2.map Prod.fst).Nodup)
      _ ?_ cfg.time_slots m hm
    intro m2 ts hm2
    cases getCell tt sem div day ts with
    | none => exact hm2
    | some c =>
      dsimp only
      split
      · exact pincr_nodup hm2
      · exact hm2
  · simp

/-- With distinct keys, membership determines the lookup. -/
theorem plookup_of_mem_nodup {m : List (String × Nat)}
    (hnd : (m.map Prod.fst).Nodup) {p : String × Nat} (hp : p ∈ m) :
    plookup m p.1 = some p.2 := by
  induction m with
  | nil => simp at hp
  | cons q t ih =>
    obtain ⟨a, n⟩ := q
    rw [List.map_cons, List.nodup_cons] at hnd
    rcases List.mem_cons.mp hp with h1 | h1
    · subst h1
      rw [plookup, if_pos rfl]
    · have hne : a ≠ p.1 := by
        intro hc
        apply hnd.1
        show a ∈ t.map Prod.fst
        rw [hc]
        exact List.mem_map_of_mem Prod.fst h1
      rw [plookup, if_neg hne]
      exact ih hnd.2 h1

/-- A singleton sublist of a mapped list lifts to the original list. -/
theorem single_sublist_of_map {α β : Type} {f : α → β} {y : β} :
    ∀ {l : List α}, [y].Sublist (l.map f) → ∃ q, f q = y ∧ [q].Sublist l := by
  intro l
  induction l with
  | nil => intro h; simp at h
  | cons a t ih =>
    intro h
    rw [List.map_cons] at h
    cases h with
    | cons _ h' =>
      obtain ⟨q, hq1, hq2⟩ := ih h'
      exact ⟨q, hq1, hq2.cons a⟩
    | cons₂ _ h' =>
      exact ⟨a, rfl, (List.nil_sublist t).cons₂ a⟩

/-- A pair sublist of a mapped list lifts to the original list. -/
theorem pair_sublist_of_map {α β : Type} {f : α → β} {x y : β} :
    ∀ {l : List α}, [x, y].Sublist (l.map f) →
      ∃ p q, f p = x ∧ f q = y ∧ [p, q].Sublist l := by
  intro l
  induction l with
  | nil => intro h; simp at h
  | cons a t ih =>
    intro h
    rw [List.map_cons] at h
    cases h with
    | cons _ h' =>
      obtain ⟨p, q, h1, h2, h3⟩ := ih h'
      exact ⟨p, q, h1, h2, h3.cons a⟩
    | cons₂ _ h' =>
      obtain ⟨q, hq1, hq2⟩ := single_sublist_of_map h'
      exact ⟨a, q, rfl, hq1, hq2.cons₂ a⟩

/-- C9 as amended: `get_preferred_slots` returns exactly the slots of the
frequency dict (a permutation of its keys), in descending frequency order,
and equal-frequency slots keep their dict insertion order — the order of
first appearance in the day-major, slot-minor scan, not the grid order. -/
theorem c9_preferred_slots_amended (cfg : Config) (tt : Timetable) (sem : Nat)
    (div subject : String) :
    (get_preferred_slots cfg tt sem div subject).Perm
        ((preferredSlotCounts cfg tt sem div subject).map Prod.fst)
    ∧ (get_preferred_slots cfg tt sem div subject).Pairwise
        (fun a b => countOf (preferredSlotCounts cfg tt sem div subject) b
          ≤ countOf (preferredSlotCounts cfg tt sem div subject) a)
    ∧ (∀ a b, countOf (preferredSlotCounts cfg tt sem div subject) a
          = countOf (preferredSlotCounts cfg tt sem div subject) b →
        [a, b].Sublist ((preferredSlotCounts cfg tt sem div subject).map Prod.fst) →
        [a, b].Sublist (get_preferred_slots cfg tt sem div subject)) := by
  have hnd := preferredSlotCounts_keys_nodup cfg tt sem div subject
  unfold get_preferred_slots
  set cnts := preferredSlotCounts cfg tt sem div subject with hcnts
  have hmemcount : ∀ p ∈ cnts, countOf cnts p.1 = p.2 := by
    intro p hp
    unfold countOf
    rw [plookup_of_mem_nodup hnd hp]
    rfl
  refine ⟨?_, ?_, ?_⟩
  · exact (List.perm_insertionSort countGE cnts).map Prod.fst
  · have hs := List.sorted_insertionSort countGE cnts
    rw [List.pairwise_map]
    refine hs.imp_of_mem ?_
    intro p q hp hq hr
    rw [List.mem_insertionSort] at hp hq
    rw [hmemcount p hp, hmemcount q hq]
    exact hr
  · intro a b hab hsub
    obtain ⟨p, q, hfp, hfq, hpq⟩ := pair_sublist_of_map hsub
    have hp : p ∈ cnts := hpq.subset (by simp)
    have hq : q ∈ cnts := hpq.subset (by simp)
    have hr : countGE p q := by
      unfold countGE
      rw [← hmemcount p hp, ← hmemcount q hq, hfp, hfq, hab]
    have hst := List.pair_sublist_insertionSort hr hpq
    have hmap := hst.map Prod.fst
    rw [List.map_cons, List.map_cons, List.map_nil, hfp, hfq] at hmap
    exact hmap

/-- Witness for C9's amended statement: the counterexample pair has equal
frequencies, appears in the dict key order, and is preserved in the
output. -/
theorem c9_witness :
    countOf (preferredSlotCounts cfgX ttX 1 "A" "CS") "9:55-10:45"
        = countOf (preferredSlotCounts cfgX ttX 1 "A" "CS") "8:05-8:55"
    ∧ ["9:55-10:45", "8:05-8:55"].Sublist
        ((preferredSlotCounts cfgX ttX 1 "A" "CS").map Prod.fst)
    ∧ ["9:55-10:45", "8:05-8:55"].Sublist (get_preferred_slots cfgX ttX 1 "A" "CS") :=
  ⟨by decide, by decide,
    (c9_preferred_slots_amended cfgX ttX 1 "A" "CS").2.2 _ _ (by decide) (by decide)⟩

/-- C10: the faculty directory reaches the engine only through the per-day
gates, and those evaluate `check_faculty_availability` solely at
`time_slots[0]` (src lines 2529, 2585, 2655).  Hence two faculty directories
that agree on availability at the first grid slot — however much their
windows differ over the slots actually scanned for placement — generate the
same schedule, for every random outcome and target filter. -/
theorem c10_only_first_slot_gates (cfg : Config) (F2 : List (String × FacultyData))
    (rng : Rand) (tsem : Option Nat) (tdiv : Option String)
    (hts : cfg.time_slots ≠ [])
    (hagree : ∀ f day, check_faculty_availability cfg f day (cfg.time_slots.headD "")
        = check_faculty_availability { cfg with faculties := F2 } f day
          (cfg.time_slots.headD "")) :
    generate_timetable cfg rng tsem tdiv
      = generate_timetable { cfg with faculties := F2 } rng tsem tdiv := by
  clear hts hagree
  rw [generate_eq_init, generate_eq_init]
  rfl

/-- The two directories agree on availability at the first slot of the grid
for every faculty name and day. -/
theorem cfgW_agree : ∀ f day,
    check_faculty_availability cfgW f day (cfgW.time_slots.headD "")
      = check_faculty_availability { cfgW with faculties := F2W } f day
        (cfgW.time_slots.headD "") := by
  intro f day
  by_cases hf : ("FX" : String) = f
  · have h1 : plookup cfgW.faculties f = some (⟨"09:00", "15:15", pyDays⟩ : FacultyData) := by
      rw [show cfgW.faculties = [("FX", ⟨"09:00", "15:15", pyDays⟩)] from rfl,
        plookup, if_pos hf]
    have h2 : plookup ({ cfgW with faculties := F2W }).faculties f
        = some (⟨"09:00", "09:50", pyDays⟩ : FacultyData) := by
      show plookup F2W f = some (⟨"09:00", "09:50", pyDays⟩ : FacultyData)
      rw [show F2W = [("FX", ⟨"09:00", "09:50", pyDays⟩)] from rfl, plookup, if_pos hf]
    unfold check_faculty_availability
    rw [h1, h2]
    dsimp only
    by_cases hd : day ∈ pyDays
    · rw [if_pos hd, if_pos hd]
      decide
    · rw [if_neg hd, if_neg hd]
  · have h1 : plookup cfgW.faculties f = none := by
      rw [show cfgW.faculties = [("FX", ⟨"09:00", "15:15", pyDays⟩)] from rfl,
        plookup, if_neg hf]
      rfl
    have h2 : plookup ({ cfgW with faculties := F2W }).faculties f = none := by
      show plookup F2W f = none
      rw [show F2W = [("FX", ⟨"09:00", "09:50", pyDays⟩)] from rfl, plookup, if_neg hf]
      rfl
    unfold check_faculty_availability
    rw [h1, h2]

/-- Witness for C10 on the concrete pair of directories. -/
theorem c10_witness :
    generate_timetable cfgW exRand none none
      = generate_timetable { cfgW with faculties := F2W } exRand none none :=
  c10_only_first_slot_gates cfgW F2W exRand none none (by decide) cfgW_agree

end TTG

